import Mathlib

/-!
Shallow embedding of the transaction message layer of
`crates/sui-types/src/messages.rs`: the transaction data model
(`SingleTransactionKind`, `TransactionKind`, `TransactionData`), the generic
transaction envelope with its memoized digest, and the `SignatureAggregator`.
Cryptographic primitives, the `Committee` type and the quorum sign-info
constructors live in crates that are not part of this source tree; they are
modelled from the specification and marked as such in their doc comments.
-/

namespace Sui

/-- Model of a 20-byte object id. -/
abbrev ObjectID := Nat

/-- Model of an object sequence number (u64). -/
abbrev SequenceNumber := Nat

/-- Model of a 32-byte object digest. -/
abbrev ObjectDigest := Nat

/-- `ObjectRef` from `base_types.rs`: `(ObjectID, SequenceNumber, ObjectDigest)`. -/
abbrev ObjectRef := ObjectID × SequenceNumber × ObjectDigest

/-- Model of a sender address. -/
abbrev SuiAddress := Nat

/-- Epoch identifier (u64). -/
abbrev EpochId := Nat

/-- Stake weight of an authority (u64). -/
abbrev StakeUnit := Nat

/-- An authority's public-key name. -/
abbrev AuthorityName := Nat

/-- Model of a 32-byte transaction digest. -/
abbrev TransactionDigest := Nat

/-- Modelled from the spec: `SUI_SYSTEM_STATE_OBJECT_ID` is a fixed well-known
object id declared in the crate root, which is not under `src/`. Any fixed
value serves the model. -/
def SUI_SYSTEM_STATE_OBJECT_ID : ObjectID := 5

/-- Modelled from the spec: `ObjectID::ZERO` from `base_types.rs` (not under
`src/`), the all-zero object id. -/
def ObjectID.ZERO : ObjectID := 0

/-- Modelled from the spec: `ObjectDigest::MIN` from `base_types.rs` (not under
`src/`), the all-zero digest. -/
def ObjectDigest.MIN : ObjectDigest := 0

/-- Modelled from the spec: `SuiAddress::default()`, the zero address. -/
def SuiAddress.zero : SuiAddress := 0

/-- `ObjectArg` from `messages.rs`. -/
inductive ObjectArg
  | ImmOrOwnedObject : ObjectRef → ObjectArg
  | SharedObject : ObjectID → ObjectArg
deriving DecidableEq

/-- `CallArg` from `messages.rs`. -/
inductive CallArg
  | Pure : List Nat → CallArg
  | Object : ObjectArg → CallArg
  | ObjVec : List ObjectArg → CallArg
deriving DecidableEq

/-- `TransferObject` payload from `messages.rs`. -/
structure TransferObject where
  recipient : SuiAddress
  object_ref : ObjectRef
deriving DecidableEq

/-- `MoveCall` payload from `messages.rs`. `Identifier` and `TypeTag` come from
external Move crates and are modelled opaquely; only `package` and `arguments`
feed the operations verified here. -/
structure MoveCall where
  package : ObjectRef
  module : String
  function : String
  type_arguments : List Nat
  arguments : List CallArg
deriving DecidableEq

/-- `MoveModulePublish` payload from `messages.rs`. -/
structure MoveModulePublish where
  modules : List (List Nat)
deriving DecidableEq

/-- `TransferSui` payload from `messages.rs`. -/
structure TransferSui where
  recipient : SuiAddress
  amount : Option Nat
deriving DecidableEq

/-- `Pay` payload from `messages.rs`. -/
structure Pay where
  coins : List ObjectRef
  recipients : List SuiAddress
  amounts : List Nat
deriving DecidableEq

/-- `ChangeEpoch` payload from `messages.rs`. -/
structure ChangeEpoch where
  epoch : EpochId
  storage_charge : Nat
  computation_charge : Nat
deriving DecidableEq

/-- `SingleTransactionKind` from `messages.rs`, constructors in declaration
order. -/
inductive SingleTransactionKind
  | TransferObject : TransferObject → SingleTransactionKind
  | Publish : MoveModulePublish → SingleTransactionKind
  | Call : MoveCall → SingleTransactionKind
  | TransferSui : TransferSui → SingleTransactionKind
  | Pay : Pay → SingleTransactionKind
  | ChangeEpoch : ChangeEpoch → SingleTransactionKind
deriving DecidableEq

/-- `InputObjectKind` from `messages.rs`. -/
inductive InputObjectKind
  | MovePackage : ObjectID → InputObjectKind
  | ImmOrOwnedMoveObject : ObjectRef → InputObjectKind
  | SharedMoveObject : ObjectID → InputObjectKind
deriving DecidableEq

/-- `InputObjectKind::object_id` from `messages.rs`. -/
def InputObjectKind.object_id : InputObjectKind → ObjectID
  | .MovePackage id => id
  | .ImmOrOwnedMoveObject (id, _, _) => id
  | .SharedMoveObject id => id

/-- Modelled from the spec: a handle inside a decoded `CompiledModule`
(`move_binary_format` is an external crate). `module_id` stands for
`module_id_for_handle(handle)` and `address` for
`ObjectID::from(address_identifier_at(handle.address))`. -/
structure ModuleHandle where
  module_id : Nat
  address : ObjectID
deriving DecidableEq

/-- Modelled from the spec: a decoded Move module, exposing only its own
`self_id` and its module handles, the data used by
`input_objects_in_compiled_modules`. -/
structure CompiledModule where
  self_id : Nat
  module_handles : List ModuleHandle
deriving DecidableEq

/-- Insertion into a `BTreeSet<ObjectID>` modelled as a sorted duplicate-free
list. -/
def btreeInsert (x : ObjectID) : List ObjectID → List ObjectID
  | [] => [x]
  | y :: ys =>
    if x < y then x :: y :: ys
    else if x = y then y :: ys
    else y :: btreeInsert x ys

/-- `TransactionEnvelope::input_objects_in_compiled_modules` from
`messages.rs`: the dependent packages of a set of modules are the addresses of
every module handle whose module is not among the modules being published,
collected into a `BTreeSet` and emitted as `MovePackage` inputs. -/
def input_objects_in_compiled_modules (compiled_modules : List CompiledModule) :
    List InputObjectKind :=
  let to_be_published := compiled_modules.map (·.self_id)
  let dependent_packages :=
    compiled_modules.foldl
      (fun acc m =>
        m.module_handles.foldl
          (fun acc h =>
            if h.module_id ∈ to_be_published then acc else btreeInsert h.address acc)
          acc)
      []
  dependent_packages.map InputObjectKind.MovePackage

/-- The per-argument arm of the `Call` case of
`SingleTransactionKind::input_objects` in `messages.rs`: `Pure` contributes
nothing, object arguments one entry each, `ObjVec` one entry per element. -/
def CallArg.inputEntries : CallArg → List InputObjectKind
  | .Pure _ => []
  | .Object (.ImmOrOwnedObject object_ref) => [.ImmOrOwnedMoveObject object_ref]
  | .Object (.SharedObject id) => [.SharedMoveObject id]
  | .ObjVec v =>
    v.map fun
      | .ImmOrOwnedObject object_ref => .ImmOrOwnedMoveObject object_ref
      | .SharedObject id => .SharedMoveObject id

/-- The per-argument arm of `SingleTransactionKind::shared_input_objects` in
`messages.rs`: only `SharedObject` arguments (also inside `ObjVec`)
contribute. -/
def CallArg.sharedEntries : CallArg → List ObjectID
  | .Pure _ => []
  | .Object (.ImmOrOwnedObject _) => []
  | .Object (.SharedObject id) => [id]
  | .ObjVec v =>
    v.filterMap fun
      | .SharedObject id => some id
      | .ImmOrOwnedObject _ => none

/-- `SingleTransactionKind::shared_input_objects` from `messages.rs`: only the
`Call` arm produces ids; every other kind falls into the catch-all empty
iterator. -/
def SingleTransactionKind.shared_input_objects : SingleTransactionKind → List ObjectID
  | .Call c => c.arguments.flatMap CallArg.sharedEntries
  | _ => []

/-- The collection phase of `SingleTransactionKind::input_objects` in
`messages.rs`, before the duplicate check. `deser` models
`CompiledModule::deserialize` from the external `move_binary_format` crate
(malformed modules yield `none` and are silently skipped, as in the source). -/
def SingleTransactionKind.collectInputs (deser : List Nat → Option CompiledModule) :
    SingleTransactionKind → List InputObjectKind
  | .TransferObject t => [.ImmOrOwnedMoveObject t.object_ref]
  | .Call c => c.arguments.flatMap CallArg.inputEntries ++ [.MovePackage c.package.1]
  | .Publish p => input_objects_in_compiled_modules (p.modules.filterMap deser)
  | .TransferSui _ => []
  | .Pay p => p.coins.map (fun o => .ImmOrOwnedMoveObject o)
  | .ChangeEpoch _ => [.SharedMoveObject SUI_SYSTEM_STATE_OBJECT_ID]

/-- `SuiError` from `error.rs`, restricted to the variants reachable from the
operations embedded here. -/
inductive SuiError
  | DuplicateObjectRefInput
  | InvalidBatchTransaction (error : String)
  | InvalidSignature
  | CertificateAuthorityReuse
  | UnknownSigner
deriving DecidableEq

/-- The duplicate-detection loop of `SingleTransactionKind::input_objects`:
`input_objects.iter().all(|o| used.insert(o.object_id()))` over a growing
`HashSet`. -/
def checkNoDupIds : List InputObjectKind → List ObjectID → Bool
  | [], _ => true
  | o :: rest, used =>
    if o.object_id ∈ used then false else checkNoDupIds rest (o.object_id :: used)

/-- `SingleTransactionKind::input_objects` from `messages.rs`: collect the
per-kind inputs, then fail with `DuplicateObjectRefInput` when two entries
share an `object_id`. -/
def SingleTransactionKind.input_objects (deser : List Nat → Option CompiledModule)
    (k : SingleTransactionKind) : Except SuiError (List InputObjectKind) :=
  let input_objects := k.collectInputs deser
  if checkNoDupIds input_objects [] then .ok input_objects
  else .error .DuplicateObjectRefInput

/-- `TransactionKind` from `messages.rs`. -/
inductive TransactionKind
  | Single : SingleTransactionKind → TransactionKind
  | Batch : List SingleTransactionKind → TransactionKind
deriving DecidableEq

/-- `TransactionKind::single_transactions` from `messages.rs`. -/
def TransactionKind.single_transactions : TransactionKind → List SingleTransactionKind
  | .Single s => [s]
  | .Batch b => b

/-- The `collect::<SuiResult<Vec<_>>>` step of `TransactionKind::input_objects`:
stop at the first member whose `input_objects` fails. -/
def collectSingleInputs (deser : List Nat → Option CompiledModule) :
    List SingleTransactionKind → Except SuiError (List (List InputObjectKind))
  | [] => .ok []
  | s :: rest =>
    match s.input_objects deser with
    | .error e => .error e
    | .ok l =>
      match collectSingleInputs deser rest with
      | .error e => .error e
      | .ok ls => .ok (l :: ls)

/-- `TransactionKind::input_objects` from `messages.rs`: map
`SingleTransactionKind::input_objects` over the members, propagate the first
error, flatten on success. No duplicate check is re-run across members. -/
def TransactionKind.input_objects (deser : List Nat → Option CompiledModule)
    (tk : TransactionKind) : Except SuiError (List InputObjectKind) :=
  match collectSingleInputs deser tk.single_transactions with
  | .error e => .error e
  | .ok ls => .ok ls.flatten

/-- `TransactionKind::is_system_tx` from `messages.rs`. -/
def TransactionKind.is_system_tx : TransactionKind → Bool
  | .Single (.ChangeEpoch _) => true
  | _ => false

/-- `TransactionKind::validity_check` from `messages.rs`: a batch must be
non-empty and contain only `Call`, `TransferObject` or `Pay`; every single
kind passes. -/
def TransactionKind.validity_check : TransactionKind → Except SuiError Unit
  | .Batch b =>
    if b.isEmpty then
      .error (.InvalidBatchTransaction "Batch Transaction cannot be empty")
    else
      let valid := b.all fun s =>
        match s with
        | .Call _ | .TransferObject _ | .Pay _ => true
        | .TransferSui _ | .ChangeEpoch _ | .Publish _ => false
      if valid then .ok ()
      else .error (.InvalidBatchTransaction
        "Batch transaction contains non-batchable transactions. Only Call and TransferObject are allowed")
  | .Single _ => .ok ()

/-- `TransactionData` from `messages.rs`. -/
structure TransactionData where
  kind : TransactionKind
  sender : SuiAddress
  gas_payment : ObjectRef
  gas_price : Nat
  gas_budget : Nat
deriving DecidableEq

/-- `TransactionData::new` from `messages.rs`: hard-codes `gas_price: 1`. -/
def TransactionData.new (kind : TransactionKind) (sender : SuiAddress)
    (gas_payment : ObjectRef) (gas_budget : Nat) : TransactionData :=
  { kind, sender, gas_price := 1, gas_payment, gas_budget }

/-- `TransactionData::new_with_gas_price` from `messages.rs`. -/
def TransactionData.new_with_gas_price (kind : TransactionKind) (sender : SuiAddress)
    (gas_payment : ObjectRef) (gas_budget : Nat) (gas_price : Nat) : TransactionData :=
  { kind, sender, gas_price, gas_payment, gas_budget }

/-- `TransactionData::new_move_call` from `messages.rs`. -/
def TransactionData.new_move_call (sender : SuiAddress) (package : ObjectRef)
    (module : String) (function : String) (type_arguments : List Nat)
    (gas_payment : ObjectRef) (arguments : List CallArg) (gas_budget : Nat) :
    TransactionData :=
  let kind := TransactionKind.Single (.Call
    { package, module, function, type_arguments, arguments })
  TransactionData.new kind sender gas_payment gas_budget

/-- `TransactionData::new_transfer` from `messages.rs`. -/
def TransactionData.new_transfer (recipient : SuiAddress) (object_ref : ObjectRef)
    (sender : SuiAddress) (gas_payment : ObjectRef) (gas_budget : Nat) :
    TransactionData :=
  let kind := TransactionKind.Single (.TransferObject { recipient, object_ref })
  TransactionData.new kind sender gas_payment gas_budget

/-- `TransactionData::new_transfer_sui` from `messages.rs`. -/
def TransactionData.new_transfer_sui (recipient : SuiAddress) (sender : SuiAddress)
    (amount : Option Nat) (gas_payment : ObjectRef) (gas_budget : Nat) :
    TransactionData :=
  let kind := TransactionKind.Single (.TransferSui { recipient, amount })
  TransactionData.new kind sender gas_payment gas_budget

/-- `TransactionData::new_pay` from `messages.rs`. -/
def TransactionData.new_pay (sender : SuiAddress) (coins : List ObjectRef)
    (recipients : List SuiAddress) (amounts : List Nat) (gas_payment : ObjectRef)
    (gas_budget : Nat) : TransactionData :=
  let kind := TransactionKind.Single (.Pay { coins, recipients, amounts })
  TransactionData.new kind sender gas_payment gas_budget

/-- `TransactionData::new_module` from `messages.rs`. -/
def TransactionData.new_module (sender : SuiAddress) (gas_payment : ObjectRef)
    (modules : List (List Nat)) (gas_budget : Nat) : TransactionData :=
  let kind := TransactionKind.Single (.Publish { modules })
  TransactionData.new kind sender gas_payment gas_budget

/-- `TransactionData::gas_payment_object_ref` from `messages.rs`. -/
def TransactionData.gas_payment_object_ref (td : TransactionData) : ObjectRef :=
  td.gas_payment

/-- `TransactionData::input_objects` from `messages.rs`: the kind's inputs,
with the gas payment pushed at the end for non-system transactions; no
duplicate check is re-run after the push. -/
def TransactionData.input_objects (deser : List Nat → Option CompiledModule)
    (td : TransactionData) : Except SuiError (List InputObjectKind) :=
  match td.kind.input_objects deser with
  | .error e => .error e
  | .ok inputs =>
    if td.kind.is_system_tx then .ok inputs
    else .ok (inputs ++ [.ImmOrOwnedMoveObject td.gas_payment_object_ref])

/-- Modelled from the spec: a sender signature on the wire is
`[scheme_tag: 1 byte][signature bytes][public key bytes]` (`crypto.rs` is not
under `src/`). Only the byte content matters to the claims verified here. -/
structure Signature where
  bytes : List Nat
deriving DecidableEq

/-- Modelled from the spec: the length of an `Ed25519SuiSignature`, one scheme
byte, a 64-byte signature and a 32-byte public key. -/
def Ed25519SuiSignature.LENGTH : Nat := 97

/-- Modelled from the spec: the fixed all-zero-byte Ed25519 sentinel signature
`Ed25519SuiSignature::from_bytes(&[0; LENGTH])` used by system
transactions. -/
def ed25519ZeroSentinel : Signature :=
  { bytes := List.replicate Ed25519SuiSignature.LENGTH 0 }

/-- Modelled from the spec: an authority (BLS-like) signature from `crypto.rs`
(not under `src/`), opaque to the message layer. -/
abbrev AuthoritySignature := Nat

/-- `SenderSignedData` from `messages.rs`. -/
structure SenderSignedData where
  data : TransactionData
  tx_signature : Signature
deriving DecidableEq

/-- `EmptySignInfo` from `crypto.rs`, the auth info of a client-only-signed
transaction. -/
structure EmptySignInfo where
deriving DecidableEq

/-- `AuthoritySignInfo` from `crypto.rs` as described by the spec: a single
authority's epoch-scoped signature. -/
structure AuthoritySignInfo where
  epoch : EpochId
  authority : AuthorityName
  signature : AuthoritySignature
deriving DecidableEq

/-- Modelled from the spec: `Committee` from `committee.rs` (not under
`src/`): the epoch-scoped stake table. -/
structure Committee where
  epoch : EpochId
  voting_rights : List (AuthorityName × StakeUnit)
deriving DecidableEq

/-- Modelled from the spec: `Committee::weight` returns the authority's stake,
or 0 for unknown authorities. -/
def Committee.weight (c : Committee) (authority : AuthorityName) : StakeUnit :=
  match c.voting_rights.find? (fun p => p.1 = authority) with
  | some p => p.2
  | none => 0

/-- Modelled from the spec: `total_stake` is the sum of all voting rights. -/
def Committee.total_stake (c : Committee) : StakeUnit :=
  (c.voting_rights.map Prod.snd).sum

/-- Modelled from the spec: `quorum_threshold = 2 * total_stake / 3 + 1` in
integer arithmetic. -/
def Committee.quorum_threshold (c : Committee) : StakeUnit :=
  2 * c.total_stake / 3 + 1

/-- Modelled from the spec: `AuthorityStrongQuorumSignInfo` from `crypto.rs`
(not under `src/`): epoch, signers bitmap and aggregate signature. The bitmap
is modelled as the list of signer names in committee order, the aggregate as
the combined signatures in the same order. -/
structure AuthorityStrongQuorumSignInfo where
  epoch : EpochId
  signers_map : List AuthorityName
  aggregate : List AuthoritySignature
deriving DecidableEq

/-- Modelled from the spec: `AuthorityStrongQuorumSignInfo::new(epoch)`, the
initially empty quorum info of a partial certificate. -/
def AuthorityStrongQuorumSignInfo.new (epoch : EpochId) : AuthorityStrongQuorumSignInfo :=
  { epoch, signers_map := [], aggregate := [] }

/-- Modelled from the spec: `AuthorityStrongQuorumSignInfo::new_with_signatures`
materializes the quorum info from a stash of `(authority, signature)` pairs:
per §4.5 the signer bitmap is ordered by authority index in the committee,
independent of append order, and the aggregate combines exactly the stashed
signatures. -/
def AuthorityStrongQuorumSignInfo.new_with_signatures
    (signatures : List (AuthorityName × AuthoritySignature)) (committee : Committee) :
    AuthorityStrongQuorumSignInfo :=
  let inStash := fun (p : AuthorityName × StakeUnit) =>
    (signatures.map Prod.fst).contains p.1
  { epoch := committee.epoch
    signers_map := (committee.voting_rights.filter inStash).map Prod.fst
    aggregate := (committee.voting_rights.filter inStash).filterMap
      (fun p => (signatures.find? (fun q => q.1 = p.1)).map Prod.snd) }

/-- `TransactionEnvelope<S>` from `messages.rs`. The `OnceCell` digest cache is
modelled as an `Option` and the digest operation as an explicit state
transformer. -/
structure TransactionEnvelope (S : Type) where
  transaction_digest : Option TransactionDigest
  is_verified : Bool
  signed_data : SenderSignedData
  auth_sign_info : S
deriving DecidableEq

/-- `Transaction = TransactionEnvelope<EmptySignInfo>`. -/
abbrev Transaction := TransactionEnvelope EmptySignInfo

/-- `SignedTransaction = TransactionEnvelope<AuthoritySignInfo>`. -/
abbrev SignedTransaction := TransactionEnvelope AuthoritySignInfo

/-- `CertifiedTransaction = TransactionEnvelope<AuthorityStrongQuorumSignInfo>`. -/
abbrev CertifiedTransaction := TransactionEnvelope AuthorityStrongQuorumSignInfo

/-- `TransactionEnvelope::digest` from `messages.rs`:
`transaction_digest.get_or_init(|| sha3_hash(&self.signed_data))`. The result
is the digest, the envelope after the call, and the number of hash
computations the call performed. `h` models `sha3_hash` from `crypto.rs`. -/
def TransactionEnvelope.digest {S : Type} (h : SenderSignedData → TransactionDigest)
    (e : TransactionEnvelope S) : TransactionDigest × TransactionEnvelope S × Nat :=
  match e.transaction_digest with
  | some d => (d, e, 0)
  | none =>
    let d := h e.signed_data
    (d, { e with transaction_digest := some d }, 1)

/-- `TransactionEnvelope::verify_sender_signature` from `messages.rs`: succeed
immediately when the envelope is marked verified or the kind is the system
transaction, otherwise verify the sender signature against the data and the
claimed sender. `sigVerify` models `Signature::verify` from `crypto.rs`. -/
def TransactionEnvelope.verify_sender_signature {S : Type}
    (sigVerify : Signature → TransactionData → SuiAddress → Except SuiError Unit)
    (e : TransactionEnvelope S) : Except SuiError Unit :=
  if e.is_verified || e.signed_data.data.kind.is_system_tx then .ok ()
  else sigVerify e.signed_data.tx_signature e.signed_data.data e.signed_data.data.sender

/-- `Transaction::new` from `messages.rs`: empty digest cache, unverified,
empty auth info. -/
def Transaction.new (data : TransactionData) (signature : Signature) : Transaction :=
  { transaction_digest := none
    is_verified := false
    signed_data := { data, tx_signature := signature }
    auth_sign_info := {} }

/-- `SignedTransaction::new_change_epoch` from `messages.rs`: a system
transaction with default sender, zero gas payment sentinel, zero gas budget
and the all-zero Ed25519 sender-signature sentinel, authority-signed by
`authority`. `authSign` models `AuthoritySignature::new(&signed_data, secret)`
from `crypto.rs`. -/
def SignedTransaction.new_change_epoch (next_epoch : EpochId) (storage_charge : Nat)
    (computation_charge : Nat) (authority : AuthorityName)
    (authSign : SenderSignedData → AuthoritySignature) : SignedTransaction :=
  let kind := TransactionKind.Single (.ChangeEpoch
    { epoch := next_epoch, storage_charge, computation_charge })
  let data := TransactionData.new kind SuiAddress.zero
    (ObjectID.ZERO, 0, ObjectDigest.MIN) 0
  let signed_data : SenderSignedData := { data, tx_signature := ed25519ZeroSentinel }
  { transaction_digest := none
    is_verified := false
    signed_data
    auth_sign_info :=
      { epoch := next_epoch, authority, signature := authSign signed_data } }

/-- `CertifiedTransaction::new` from `messages.rs`: inherits the digest cache
and signed data of the transaction, resets `is_verified`, and starts from the
empty quorum info of the committee epoch. -/
def CertifiedTransaction.new (epoch : EpochId) (transaction : Transaction) :
    CertifiedTransaction :=
  { transaction_digest := transaction.transaction_digest
    is_verified := false
    signed_data := transaction.signed_data
    auth_sign_info := AuthorityStrongQuorumSignInfo.new epoch }

/-- `SignatureAggregator` from `messages.rs`. The borrowed committee is stored
by value; the `HashSet` of used authorities is modelled as a list with
membership tests. -/
structure SignatureAggregator where
  committee : Committee
  weight : StakeUnit
  used_authorities : List AuthorityName
  partialCert : CertifiedTransaction
  signature_stash : List (AuthorityName × AuthoritySignature)
deriving DecidableEq

/-- `SignatureAggregator::new_unsafe` from `messages.rs`. -/
def SignatureAggregator.new_unsafe (transaction : Transaction) (committee : Committee) :
    SignatureAggregator :=
  { committee
    weight := 0
    used_authorities := []
    partialCert := CertifiedTransaction.new committee.epoch transaction
    signature_stash := [] }

/-- `SignatureAggregator::append` from `messages.rs`, as a state transformer:
the result is the aggregator after the call together with the outcome. The
source order is kept: verify the signature, reject reuse, insert into
`used_authorities`, only then check the weight, then update weight and stash,
and on reaching the quorum threshold re-materialize the quorum sign info from
the whole stash and return the updated partial certificate. `authVerify`
models `AuthoritySignature::verify(&signed_data, authority)` from
`crypto.rs`. -/
def SignatureAggregator.append
    (authVerify : AuthoritySignature → SenderSignedData → AuthorityName → Bool)
    (s : SignatureAggregator) (authority : AuthorityName)
    (signature : AuthoritySignature) :
    SignatureAggregator × Except SuiError (Option CertifiedTransaction) :=
  if ¬ authVerify signature s.partialCert.signed_data authority then
    (s, .error .InvalidSignature)
  else if authority ∈ s.used_authorities then
    (s, .error .CertificateAuthorityReuse)
  else
    let s1 := { s with used_authorities := s.used_authorities ++ [authority] }
    let voting_rights := s.committee.weight authority
    if voting_rights = 0 then (s1, .error .UnknownSigner)
    else
      let s2 := { s1 with
        weight := s1.weight + voting_rights
        signature_stash := s1.signature_stash ++ [(authority, signature)] }
      if s2.committee.quorum_threshold ≤ s2.weight then
        let info := AuthorityStrongQuorumSignInfo.new_with_signatures
          s2.signature_stash s2.committee
        let s3 := { s2 with
          partialCert := { s2.partialCert with auth_sign_info := info } }
        (s3, .ok (some s3.partialCert))
      else (s2, .ok none)

instance {ε α : Type} [DecidableEq ε] [DecidableEq α] : DecidableEq (Except ε α) :=
  fun x y =>
    match x, y with
    | .ok a, .ok b =>
      if h : a = b then .isTrue (by rw [h]) else .isFalse (by simp [h])
    | .error a, .error b =>
      if h : a = b then .isTrue (by rw [h]) else .isFalse (by simp [h])
    | .ok _, .error _ => .isFalse (fun h => Except.noConfusion h)
    | .error _, .ok _ => .isFalse (fun h => Except.noConfusion h)

/-! ### Concrete fixtures used by counterexamples and witnesses -/

/-- A deserializer that rejects every module byte string. -/
def deserNone : List Nat → Option CompiledModule := fun _ => none

/-- An authority-signature verifier that accepts everything. -/
def avTrue : AuthoritySignature → SenderSignedData → AuthorityName → Bool :=
  fun _ _ _ => true

/-- A concrete client transaction. -/
def txEx : Transaction :=
  Transaction.new
    (TransactionData.new (.Single (.TransferSui { recipient := 7, amount := none }))
      3 (1, 0, 0) 10)
    { bytes := [0] }

/-- A committee with one authority of stake 1; quorum threshold 1. -/
def committee1 : Committee := { epoch := 0, voting_rights := [(1, 1)] }

/-- A committee of four authorities of stake 1 each; quorum threshold 3. -/
def committee4 : Committee :=
  { epoch := 0, voting_rights := [(1, 1), (2, 1), (3, 1), (4, 1)] }

/-- A fresh aggregator over `committee1`. -/
def agg0 : SignatureAggregator := SignatureAggregator.new_unsafe txEx committee1

/-- `agg0` with authority 1 already recorded as used. -/
def agg1 : SignatureAggregator := { agg0 with used_authorities := [1] }

/-- A concrete object reference. -/
def refA : ObjectRef := (10, 1, 2)

/-- A `TransferObject` transaction whose gas payment is the transferred object
itself. -/
def tdDup : TransactionData :=
  TransactionData.new
    (.Single (.TransferObject { recipient := 7, object_ref := refA })) 3 refA 100

/-- A `Pay` transaction listing the same coin twice. -/
def tdPayDup : TransactionData :=
  TransactionData.new
    (.Single (.Pay { coins := [refA, refA], recipients := [1], amounts := [1] }))
    3 (20, 0, 0) 5

/-! ### Helper vocabulary for theorem statements -/

/-- The kinds `TransactionKind::validity_check` rejects inside a batch:
`TransferSui`, `ChangeEpoch` and `Publish`. -/
def SingleTransactionKind.isNonBatchable : SingleTransactionKind → Bool
  | .TransferSui _ | .ChangeEpoch _ | .Publish _ => true
  | .Call _ | .TransferObject _ | .Pay _ => false

/-- The object ids of the `SharedMoveObject` entries of an input list, in
order. -/
def sharedIds (l : List InputObjectKind) : List ObjectID :=
  l.filterMap fun o =>
    match o with
    | .SharedMoveObject id => some id
    | _ => none

/-- The digest cache of an envelope is either unset or holds the hash of the
signed data; every envelope built by the constructors embedded here satisfies
this. -/
def cacheOk {S : Type} (h : SenderSignedData → TransactionDigest)
    (e : TransactionEnvelope S) : Prop :=
  e.transaction_digest = none ∨ e.transaction_digest = some (h e.signed_data)

/-! ### Claim theorems -/

/-- C9: for every epoch, storage charge, computation charge, authority and
signing key, the `SignedTransaction` built by `new_change_epoch` has sender
equal to the zero address, gas payment `(ObjectID::ZERO, SequenceNumber::default,
ObjectDigest::MIN)`, gas budget 0, and the fixed all-zero-byte Ed25519 sentinel
as its sender signature. -/
theorem new_change_epoch_fields (next_epoch storage_charge computation_charge : Nat)
    (authority : AuthorityName) (authSign : SenderSignedData → AuthoritySignature) :
    (SignedTransaction.new_change_epoch next_epoch storage_charge computation_charge
        authority authSign).signed_data.data.sender = SuiAddress.zero
    ∧ (SignedTransaction.new_change_epoch next_epoch storage_charge computation_charge
        authority authSign).signed_data.data.gas_payment =
        (ObjectID.ZERO, (0 : SequenceNumber), ObjectDigest.MIN)
    ∧ (SignedTransaction.new_change_epoch next_epoch storage_charge computation_charge
        authority authSign).signed_data.data.gas_budget = 0
    ∧ (SignedTransaction.new_change_epoch next_epoch storage_charge computation_charge
        authority authSign).signed_data.tx_signature = ed25519ZeroSentinel :=
  ⟨rfl, rfl, rfl, rfl⟩

/-- C10: every `TransactionData` built through `TransactionData::new`, through
each convenience constructor, and through `SignedTransaction::new_change_epoch`
has `gas_price = 1`; `new_with_gas_price` sets exactly the given price. -/
theorem gas_price_is_one (kind : TransactionKind) (sender : SuiAddress)
    (gas_payment : ObjectRef) (gas_budget : Nat) (recipient : SuiAddress)
    (object_ref : ObjectRef) (amount : Option Nat) (coins : List ObjectRef)
    (recipients : List SuiAddress) (amounts : List Nat) (modules : List (List Nat))
    (package : ObjectRef) (module : String) (function : String)
    (type_arguments : List Nat) (arguments : List CallArg)
    (next_epoch storage_charge computation_charge : Nat) (authority : AuthorityName)
    (authSign : SenderSignedData → AuthoritySignature) :
    (TransactionData.new kind sender gas_payment gas_budget).gas_price = 1
    ∧ (TransactionData.new_transfer recipient object_ref sender gas_payment
        gas_budget).gas_price = 1
    ∧ (TransactionData.new_transfer_sui recipient sender amount gas_payment
        gas_budget).gas_price = 1
    ∧ (TransactionData.new_pay sender coins recipients amounts gas_payment
        gas_budget).gas_price = 1
    ∧ (TransactionData.new_module sender gas_payment modules gas_budget).gas_price = 1
    ∧ (TransactionData.new_move_call sender package module function type_arguments
        gas_payment arguments gas_budget).gas_price = 1
    ∧ (SignedTransaction.new_change_epoch next_epoch storage_charge computation_charge
        authority authSign).signed_data.data.gas_price = 1
    ∧ ∀ gas_price, (TransactionData.new_with_gas_price kind sender gas_payment
        gas_budget gas_price).gas_price = gas_price :=
  ⟨rfl, rfl, rfl, rfl, rfl, rfl, rfl, fun _ => rfl⟩

/-- C8: `verify_sender_signature` returns `Ok` without examining the signature
whenever the envelope's `is_verified` flag is set or the kind is the system
transaction; otherwise it returns exactly the result of verifying the embedded
sender signature against the transaction data and the claimed sender address.
The system transaction is exactly `Single(ChangeEpoch)`. -/
theorem verify_sender_signature_spec {S : Type}
    (sigVerify : Signature → TransactionData → SuiAddress → Except SuiError Unit)
    (e : TransactionEnvelope S) :
    ((e.is_verified = true ∨ e.signed_data.data.kind.is_system_tx = true) →
      e.verify_sender_signature sigVerify = .ok ())
    ∧ (e.is_verified = false → e.signed_data.data.kind.is_system_tx = false →
      e.verify_sender_signature sigVerify =
        sigVerify e.signed_data.tx_signature e.signed_data.data
          e.signed_data.data.sender)
    ∧ (e.signed_data.data.kind.is_system_tx = true ↔
        ∃ ce, e.signed_data.data.kind = .Single (.ChangeEpoch ce)) := by
  refine ⟨?_, ?_, ?_⟩
  · intro h
    rcases h with h | h <;>
      simp [TransactionEnvelope.verify_sender_signature, h]
  · intro h1 h2
    simp [TransactionEnvelope.verify_sender_signature, h1, h2]
  · constructor
    · intro h
      rcases hk : e.signed_data.data.kind with s | b
      · rcases s with t | t | t | t | t | t <;>
          simp [TransactionKind.is_system_tx, hk] at h ⊢
      · simp [TransactionKind.is_system_tx, hk] at h
    · rintro ⟨ce, hce⟩
      simp [TransactionKind.is_system_tx, hce]

/-- C8 witness: a concrete already-verified envelope passes without signature
inspection, and a concrete unverified non-system envelope is handed to the
signature verifier. -/
theorem verify_sender_signature_spec_witness :
    TransactionEnvelope.verify_sender_signature (fun _ _ _ => .error .InvalidSignature)
      { txEx with is_verified := true } = .ok ()
    ∧ TransactionEnvelope.verify_sender_signature
        (fun _ _ _ => .error (.InvalidSignature : SuiError)) txEx =
        .error .InvalidSignature := by
  constructor
  · exact (verify_sender_signature_spec (fun _ _ _ => .error .InvalidSignature)
      { txEx with is_verified := true }).1 (Or.inl rfl)
  · exact (verify_sender_signature_spec (fun _ _ _ => .error .InvalidSignature)
      txEx).2.1 rfl rfl

/-- C5: under the cache invariant (the memo cell is unset or holds the hash of
the signed data), `digest()` returns `sha3_hash(signed_data)`; a repeated call
returns the same value and the same envelope performing no further hash
computation; a single call computes the hash at most once; the digest depends
only on the signed data, so envelopes in any signing state with the same
signed data share it, and `CertifiedTransaction::new` preserves it. -/
theorem digest_spec {S T : Type} (h : SenderSignedData → TransactionDigest)
    (e : TransactionEnvelope S) (hc : cacheOk h e) :
    (e.digest h).1 = h e.signed_data
    ∧ (e.digest h).2.2 ≤ 1
    ∧ ((e.digest h).2.1).digest h = ((e.digest h).1, (e.digest h).2.1, 0)
    ∧ (∀ (e2 : TransactionEnvelope T), cacheOk h e2 →
        e2.signed_data = e.signed_data → (e2.digest h).1 = (e.digest h).1)
    ∧ (∀ (t : Transaction) (epoch : EpochId), cacheOk h t →
        ((CertifiedTransaction.new epoch t).digest h).1 = (t.digest h).1) := by
  have key : ∀ (U : Type) (u : TransactionEnvelope U), cacheOk h u →
      (u.digest h).1 = h u.signed_data := by
    intro U u hu
    rcases hu with hu | hu <;> simp [TransactionEnvelope.digest, hu]
  refine ⟨key S e hc, ?_, ?_, ?_, ?_⟩
  · rcases hc with hc | hc <;> simp [TransactionEnvelope.digest, hc]
  · rcases hc with hc | hc <;> simp [TransactionEnvelope.digest, hc]
  · intro e2 hc2 hsd
    rw [key T e2 hc2, key S e hc, hsd]
  · intro t epoch hct
    have hcc : cacheOk h (CertifiedTransaction.new epoch t) := by
      rcases hct with hct | hct <;>
        simp [cacheOk, CertifiedTransaction.new, hct]
    rw [key _ _ hcc, key _ t hct]
    rfl

/-- C5 witness: the theorem applied to a concrete transaction with an empty
cache and a concrete hash function. -/
theorem digest_spec_witness :
    (txEx.digest (fun _ => 42)).1 = 42 :=
  (digest_spec (S := EmptySignInfo) (T := EmptySignInfo) (fun _ => 42) txEx
    (Or.inl rfl)).1

/-- The `Batch` arm of `validity_check`, phrased through `isNonBatchable`. -/
theorem validity_check_batch_eq (b : List SingleTransactionKind) :
    (TransactionKind.Batch b).validity_check =
      if b = [] then
        .error (.InvalidBatchTransaction "Batch Transaction cannot be empty")
      else if b.all (fun s => !s.isNonBatchable) then .ok ()
      else .error (.InvalidBatchTransaction
        "Batch transaction contains non-batchable transactions. Only Call and TransferObject are allowed") := by
  have hpt : ∀ s : SingleTransactionKind,
      (match s with
        | .Call _ | .TransferObject _ | .Pay _ => true
        | .TransferSui _ | .ChangeEpoch _ | .Publish _ => false) = !s.isNonBatchable := by
    intro s
    cases s <;> rfl
  simp only [TransactionKind.validity_check, hpt, List.isEmpty_iff]

/-- C7: `validity_check` returns `InvalidBatchTransaction` exactly for batches
that are empty or contain a `TransferSui`, `Publish` or `ChangeEpoch` member;
every `Single` kind passes and every non-empty batch of `Call`,
`TransferObject` and `Pay` members passes. -/
theorem validity_check_spec (tk : TransactionKind) :
    ((∃ msg, tk.validity_check = .error (.InvalidBatchTransaction msg)) ↔
      ∃ b, tk = .Batch b ∧ (b = [] ∨ ∃ s ∈ b, s.isNonBatchable = true))
    ∧ (∀ s, tk = .Single s → tk.validity_check = .ok ())
    ∧ (∀ b, tk = .Batch b → b ≠ [] → (∀ s ∈ b, s.isNonBatchable = false) →
        tk.validity_check = .ok ()) := by
  refine ⟨⟨?_, ?_⟩, ?_, ?_⟩
  · rintro ⟨msg, hmsg⟩
    cases tk with
    | Single s => simp [TransactionKind.validity_check] at hmsg
    | Batch b =>
      refine ⟨b, rfl, ?_⟩
      by_cases hb : b = []
      · exact Or.inl hb
      · right
        rw [validity_check_batch_eq, if_neg hb] at hmsg
        by_cases hall : b.all (fun s => !s.isNonBatchable) = true
        · rw [if_pos hall] at hmsg
          exact absurd hmsg (by simp)
        · obtain ⟨s, hs, hns⟩ :=
            List.all_eq_false.mp (Bool.eq_false_iff.mpr hall)
          exact ⟨s, hs, by simpa using hns⟩
  · rintro ⟨b, rfl, hcase⟩
    rcases hcase with rfl | ⟨s, hs, hbad⟩
    · exact ⟨_, by rw [validity_check_batch_eq, if_pos rfl]⟩
    · have hb : b ≠ [] := List.ne_nil_of_mem hs
      have hall : b.all (fun s => !s.isNonBatchable) = false :=
        List.all_eq_false.mpr ⟨s, hs, by simp [hbad]⟩
      exact ⟨_, by rw [validity_check_batch_eq, if_neg hb, hall, if_neg (by simp)]⟩
  · rintro s rfl
    rfl
  · rintro b rfl hb hall
    have : b.all (fun s => !s.isNonBatchable) = true :=
      List.all_eq_true.mpr (fun s hs => by simp [hall s hs])
    rw [validity_check_batch_eq, if_neg hb, this, if_pos rfl]

/-- C7 witness: the empty batch and the batch `[Call, TransferSui]` of the
spec's boundary scenarios are rejected; the singleton batch of a `Pay` is
accepted. -/
theorem validity_check_spec_witness :
    (∃ msg, (TransactionKind.Batch ([] : List SingleTransactionKind)).validity_check =
      .error (.InvalidBatchTransaction msg))
    ∧ (∃ msg, (TransactionKind.Batch
        [.Call { package := (1, 0, 0), module := "m", function := "f",
                 type_arguments := [], arguments := [] },
         .TransferSui { recipient := 2, amount := none }]).validity_check =
      .error (.InvalidBatchTransaction msg))
    ∧ (TransactionKind.Batch
        [.Pay { coins := [(1, 0, 0)], recipients := [2], amounts := [3] }]).validity_check =
      .ok () := by
  refine ⟨?_, ?_, ?_⟩
  · exact (validity_check_spec _).1.mpr ⟨[], rfl, Or.inl rfl⟩
  · exact (validity_check_spec _).1.mpr
      ⟨_, rfl, Or.inr ⟨.TransferSui { recipient := 2, amount := none }, by simp, rfl⟩⟩
  · exact (validity_check_spec _).2.2 _ rfl (by simp)
      (by rintro s hs; simp at hs; subst hs; rfl)

/-- C4: for an aggregator whose accumulated stake is exactly
`quorum_threshold − 1`, a successful append (valid signature, authority not yet
used, non-zero weight) returns `Ok(None)` when the new total is still below the
threshold and `Ok(Some(certificate))` when the new total reaches or exceeds
it. -/
theorem append_at_threshold_minus_one
    (av : AuthoritySignature → SenderSignedData → AuthorityName → Bool)
    (s : SignatureAggregator) (a : AuthorityName) (sig : AuthoritySignature)
    (hv : av sig s.partialCert.signed_data a = true)
    (hu : a ∉ s.used_authorities)
    (hw : 0 < s.committee.weight a)
    (_hq : s.weight = s.committee.quorum_threshold - 1) :
    (s.weight + s.committee.weight a < s.committee.quorum_threshold →
      (SignatureAggregator.append av s a sig).2 = .ok none)
    ∧ (s.committee.quorum_threshold ≤ s.weight + s.committee.weight a →
      ∃ c, (SignatureAggregator.append av s a sig).2 = .ok (some c)) := by
  have hw0 : s.committee.weight a ≠ 0 := Nat.pos_iff_ne_zero.mp hw
  constructor
  · intro hlt
    have hnle : ¬ s.committee.quorum_threshold ≤ s.weight + s.committee.weight a :=
      not_le.mpr hlt
    simp [SignatureAggregator.append, hv, hu, hw0, hnle]
  · intro hge
    refine ⟨{ s.partialCert with
      auth_sign_info := AuthorityStrongQuorumSignInfo.new_with_signatures
        (s.signature_stash ++ [(a, sig)]) s.committee }, ?_⟩
    simp [SignatureAggregator.append, hv, hu, hw0, hge]

/-- C4 witness: a one-authority committee with quorum threshold 1 and a fresh
aggregator of weight 0 = threshold − 1; appending the authority crosses the
threshold and yields a certificate. -/
theorem append_at_threshold_minus_one_witness :
    ∃ c, (SignatureAggregator.append avTrue agg0 1 0).2 = .ok (some c) :=
  (append_at_threshold_minus_one avTrue agg0 1 0 rfl (by decide) (by decide)
    (by decide)).2 (by decide)

/-- C1 counterexample: appending an authority unknown to the committee returns
`UnknownSigner`, yet the aggregator's set of used authorities has changed —
the source inserts into `used_authorities` before checking the weight. -/
theorem append_error_mutates_counterexample :
    (SignatureAggregator.append avTrue agg0 5 0).2 = .error .UnknownSigner
    ∧ (SignatureAggregator.append avTrue agg0 5 0).1.used_authorities ≠
        agg0.used_authorities := by
  constructor
  · rfl
  · decide

/-- C1 (amended): an `append` failing with `InvalidSignature` or
`CertificateAuthorityReuse` leaves the aggregator unchanged; an `append`
failing with `UnknownSigner` leaves the weight, stash and partial certificate
unchanged but has already added the unknown authority to the used set. -/
theorem append_error_state
    (av : AuthoritySignature → SenderSignedData → AuthorityName → Bool)
    (s : SignatureAggregator) (a : AuthorityName) (sig : AuthoritySignature) :
    ((SignatureAggregator.append av s a sig).2 = .error .InvalidSignature →
      (SignatureAggregator.append av s a sig).1 = s)
    ∧ ((SignatureAggregator.append av s a sig).2 = .error .CertificateAuthorityReuse →
      (SignatureAggregator.append av s a sig).1 = s)
    ∧ ((SignatureAggregator.append av s a sig).2 = .error .UnknownSigner →
      (SignatureAggregator.append av s a sig).1 =
        { s with used_authorities := s.used_authorities ++ [a] }) := by
  by_cases hv : av sig s.partialCert.signed_data a = true
  · by_cases hu : a ∈ s.used_authorities
    · refine ⟨?_, ?_, ?_⟩ <;> intro h <;>
        simp [SignatureAggregator.append, hv, hu] at h ⊢
    · by_cases hw : s.committee.weight a = 0
      · refine ⟨?_, ?_, ?_⟩ <;> intro h <;>
          simp [SignatureAggregator.append, hv, hu, hw] at h ⊢
      · by_cases hth : s.committee.quorum_threshold ≤ s.weight + s.committee.weight a
        · refine ⟨?_, ?_, ?_⟩ <;> intro h <;>
            simp [SignatureAggregator.append, hv, hu, hw, hth] at h
        · refine ⟨?_, ?_, ?_⟩ <;> intro h <;>
            simp [SignatureAggregator.append, hv, hu, hw, hth] at h
  · refine ⟨?_, ?_, ?_⟩ <;> intro h <;>
      simp [SignatureAggregator.append, hv] at h ⊢

/-- C1 (amended) witness: a duplicate append over `agg1` fails with
`CertificateAuthorityReuse` and leaves the aggregator exactly as it was. -/
theorem append_error_state_witness :
    (SignatureAggregator.append avTrue agg1 1 0).1 = agg1 :=
  (append_error_state avTrue agg1 1 0).2.1 (by decide)

/-- Aggregation trace over `committee4`: fresh aggregator. -/
def c3s0 : SignatureAggregator := SignatureAggregator.new_unsafe txEx committee4

/-- State after appending authority 1. -/
def c3s1 : SignatureAggregator := (SignatureAggregator.append avTrue c3s0 1 11).1

/-- State after appending authority 2. -/
def c3s2 : SignatureAggregator := (SignatureAggregator.append avTrue c3s1 2 22).1

/-- Third append: the first quorum crossing (weight 3 = threshold). -/
def c3r3 : SignatureAggregator × Except SuiError (Option CertifiedTransaction) :=
  SignatureAggregator.append avTrue c3s2 3 33

/-- State after the first quorum crossing. -/
def c3s3 : SignatureAggregator := c3r3.1

/-- Fourth append, after quorum was already reached. -/
def c3r4 : SignatureAggregator × Except SuiError (Option CertifiedTransaction) :=
  SignatureAggregator.append avTrue c3s3 4 44

/-- C3 counterexample: over a committee of four unit-stake authorities
(threshold 3), the third append returns a certificate whose signer set is
`{1, 2, 3}`, but the fourth successful append returns a certificate whose
signer set is `{1, 2, 3, 4}` — not the certificate constructed at the first
crossing. -/
theorem requorum_counterexample :
    c3r3.2 = .ok (some c3s3.partialCert)
    ∧ c3r4.2 = .ok (some c3r4.1.partialCert)
    ∧ c3s3.partialCert.auth_sign_info.signers_map = [1, 2, 3]
    ∧ c3r4.1.partialCert.auth_sign_info.signers_map = [1, 2, 3, 4]
    ∧ c3r4.1.partialCert.auth_sign_info ≠ c3s3.partialCert.auth_sign_info :=
  ⟨rfl, rfl, by decide, by decide, by decide⟩

/-- C3 (amended): every successful append that returns `Ok(Some(certificate))`
— the first quorum crossing and every later one — re-materializes the quorum
sign info from the entire current signature stash, so the returned
certificate's signer set reflects all signatures appended so far, while its
signed data stays that of the aggregated transaction. -/
theorem append_requorum
    (av : AuthoritySignature → SenderSignedData → AuthorityName → Bool)
    (s : SignatureAggregator) (a : AuthorityName) (sig : AuthoritySignature)
    (s' : SignatureAggregator) (c : CertifiedTransaction)
    (h : SignatureAggregator.append av s a sig = (s', .ok (some c))) :
    c = s'.partialCert
    ∧ c.auth_sign_info = AuthorityStrongQuorumSignInfo.new_with_signatures
        (s.signature_stash ++ [(a, sig)]) s.committee
    ∧ s'.signature_stash = s.signature_stash ++ [(a, sig)]
    ∧ s'.weight = s.weight + s.committee.weight a
    ∧ s.committee.quorum_threshold ≤ s'.weight
    ∧ c.signed_data = s.partialCert.signed_data := by
  by_cases hv : av sig s.partialCert.signed_data a = true
  · by_cases hu : a ∈ s.used_authorities
    · simp [SignatureAggregator.append, hv, hu] at h
    · by_cases hw : s.committee.weight a = 0
      · simp [SignatureAggregator.append, hv, hu, hw] at h
      · by_cases hth : s.committee.quorum_threshold ≤ s.weight + s.committee.weight a
        · rw [show SignatureAggregator.append av s a sig =
            ({ s with
                used_authorities := s.used_authorities ++ [a]
                weight := s.weight + s.committee.weight a
                signature_stash := s.signature_stash ++ [(a, sig)]
                partialCert := { s.partialCert with
                  auth_sign_info := AuthorityStrongQuorumSignInfo.new_with_signatures
                    (s.signature_stash ++ [(a, sig)]) s.committee } },
              .ok (some { s.partialCert with
                auth_sign_info := AuthorityStrongQuorumSignInfo.new_with_signatures
                  (s.signature_stash ++ [(a, sig)]) s.committee })) from by
            simp [SignatureAggregator.append, hv, hu, hw, hth]] at h
          obtain ⟨h1, h2⟩ := Prod.mk.injEq .. ▸ h
          obtain rfl := h1.symm
          simp only [Except.ok.injEq, Option.some.injEq] at h2
          obtain rfl := h2.symm
          exact ⟨rfl, rfl, rfl, rfl, hth, rfl⟩
        · simp [SignatureAggregator.append, hv, hu, hw, hth] at h
  · simp [SignatureAggregator.append, hv] at h

/-- C3 (amended) witness: the theorem applied to the concrete first quorum
crossing of the four-authority trace. -/
theorem append_requorum_witness :
    c3s3.partialCert.auth_sign_info = AuthorityStrongQuorumSignInfo.new_with_signatures
      (c3s2.signature_stash ++ [(3, 33)]) c3s2.committee :=
  (append_requorum avTrue c3s2 3 33 c3s3 c3s3.partialCert rfl).2.1

/-- Unfolded form of `SingleTransactionKind::input_objects`. -/
theorem single_input_objects_eq (deser : List Nat → Option CompiledModule)
    (s : SingleTransactionKind) :
    s.input_objects deser =
      if checkNoDupIds (s.collectInputs deser) [] then .ok (s.collectInputs deser)
      else .error .DuplicateObjectRefInput := rfl

/-- The member-collection step can only fail with `DuplicateObjectRefInput`. -/
theorem collectSingleInputs_error_eq (deser : List Nat → Option CompiledModule) :
    ∀ (ss : List SingleTransactionKind) (e : SuiError),
      collectSingleInputs deser ss = .error e → e = .DuplicateObjectRefInput := by
  intro ss
  induction ss with
  | nil =>
    intro e h
    exact absurd h (by simp [collectSingleInputs])
  | cons s rest ih =>
    intro e h
    rw [collectSingleInputs, single_input_objects_eq] at h
    by_cases hs : checkNoDupIds (s.collectInputs deser) [] = true
    · rw [if_pos hs] at h
      cases hrec : collectSingleInputs deser rest with
      | error e2 =>
        rw [hrec] at h
        simp only [Except.error.injEq] at h
        exact h ▸ ih e2 hrec
      | ok ls =>
        rw [hrec] at h
        simp at h
    · rw [if_neg hs] at h
      simp only [Except.error.injEq] at h
      exact h.symm

/-- The member-collection step succeeds exactly when every member passes its
own duplicate check, and then returns the per-member collections in order. -/
theorem collectSingleInputs_ok_eq (deser : List Nat → Option CompiledModule) :
    ∀ (ss : List SingleTransactionKind) (ls : List (List InputObjectKind)),
      collectSingleInputs deser ss = .ok ls →
        ls = ss.map (fun s => s.collectInputs deser)
        ∧ ∀ s ∈ ss, checkNoDupIds (s.collectInputs deser) [] = true := by
  intro ss
  induction ss with
  | nil =>
    intro ls h
    simp only [collectSingleInputs, Except.ok.injEq] at h
    exact ⟨h.symm, by simp⟩
  | cons s rest ih =>
    intro ls h
    rw [collectSingleInputs, single_input_objects_eq] at h
    by_cases hs : checkNoDupIds (s.collectInputs deser) [] = true
    · rw [if_pos hs] at h
      cases hrec : collectSingleInputs deser rest with
      | error e2 =>
        rw [hrec] at h
        simp at h
      | ok ls2 =>
        rw [hrec] at h
        simp only [Except.ok.injEq] at h
        obtain ⟨hmap, hall⟩ := ih ls2 hrec
        refine ⟨?_, ?_⟩
        · rw [← h, hmap]
          rfl
        · intro u hu
          rcases List.mem_cons.mp hu with rfl | hu
          · exact hs
          · exact hall u hu
    · rw [if_neg hs] at h
      simp at h

/-- The member-collection step fails with `DuplicateObjectRefInput` exactly
when some member fails its own duplicate check. -/
theorem collectSingleInputs_error_iff (deser : List Nat → Option CompiledModule)
    (ss : List SingleTransactionKind) :
    collectSingleInputs deser ss = .error .DuplicateObjectRefInput ↔
      ∃ s ∈ ss, checkNoDupIds (s.collectInputs deser) [] = false := by
  induction ss with
  | nil => simp [collectSingleInputs]
  | cons s rest ih =>
    rw [collectSingleInputs, single_input_objects_eq]
    by_cases hs : checkNoDupIds (s.collectInputs deser) [] = true
    · rw [if_pos hs]
      cases hrec : collectSingleInputs deser rest with
      | error e2 =>
        have he2 : e2 = .DuplicateObjectRefInput :=
          collectSingleInputs_error_eq deser rest e2 hrec
        subst he2
        obtain ⟨u, hu, hcu⟩ := ih.mp hrec
        simp only [true_iff]
        exact ⟨u, List.mem_cons_of_mem s hu, hcu⟩
      | ok ls =>
        simp only [Except.ok.injEq]
        constructor
        · intro h
          exact absurd h (by simp)
        · rintro ⟨u, hu, hcu⟩
          rcases List.mem_cons.mp hu with rfl | hu
          · rw [hs] at hcu
            cases hcu
          · exact absurd (ih.mpr ⟨u, hu, hcu⟩) (by simp [hrec])
    · rw [if_neg hs]
      simp only [true_iff]
      exact ⟨s, List.mem_cons_self s rest, Bool.eq_false_iff.mpr hs⟩

/-- C2 counterexample: a `TransferObject` whose gas payment is the transferred
object itself — `input_objects()` returns `Ok` with the same `object_id`
appearing twice, neither a duplicate-free list nor `DuplicateObjectRefInput`. -/
theorem input_objects_duplicates_counterexample :
    TransactionData.input_objects deserNone tdDup =
      .ok [.ImmOrOwnedMoveObject refA, .ImmOrOwnedMoveObject refA]
    ∧ ¬ (([InputObjectKind.ImmOrOwnedMoveObject refA,
          .ImmOrOwnedMoveObject refA]).map InputObjectKind.object_id).Nodup :=
  ⟨rfl, by decide⟩

/-- C2 (amended): `TransactionData::input_objects` fails — always with
`DuplicateObjectRefInput` and never a partial list — exactly when some single
member's own collection contains two entries with the same `object_id`; on
success it returns every member's collection concatenated, with the gas
payment appended for non-system kinds, without re-checking duplicates across
members or against the gas payment. -/
theorem input_objects_duplicates (deser : List Nat → Option CompiledModule)
    (td : TransactionData) :
    (∀ e, td.input_objects deser = .error e → e = .DuplicateObjectRefInput)
    ∧ (td.input_objects deser = .error .DuplicateObjectRefInput ↔
        ∃ s ∈ td.kind.single_transactions,
          checkNoDupIds (s.collectInputs deser) [] = false)
    ∧ (∀ l, td.input_objects deser = .ok l →
        l = (td.kind.single_transactions.map (fun s => s.collectInputs deser)).flatten ++
            (if td.kind.is_system_tx then [] else [.ImmOrOwnedMoveObject td.gas_payment])
        ∧ ∀ s ∈ td.kind.single_transactions,
            checkNoDupIds (s.collectInputs deser) [] = true) := by
  cases hrec : collectSingleInputs deser td.kind.single_transactions with
  | error e =>
    have he : e = .DuplicateObjectRefInput :=
      collectSingleInputs_error_eq deser _ e hrec
    subst he
    refine ⟨?_, ?_, ?_⟩
    · intro e' h
      simp [TransactionData.input_objects, TransactionKind.input_objects, hrec] at h
      exact h.symm
    · simp only [TransactionData.input_objects, TransactionKind.input_objects, hrec,
        true_iff]
      exact (collectSingleInputs_error_iff deser _).mp hrec
    · intro l h
      simp [TransactionData.input_objects, TransactionKind.input_objects, hrec] at h
  | ok ls =>
    obtain ⟨hmap, hall⟩ := collectSingleInputs_ok_eq deser _ ls hrec
    refine ⟨?_, ?_, ?_⟩
    · intro e' h
      by_cases hsys : td.kind.is_system_tx <;>
        simp [TransactionData.input_objects, TransactionKind.input_objects, hrec,
          hsys] at h
    · constructor
      · intro h
        by_cases hsys : td.kind.is_system_tx <;>
          simp [TransactionData.input_objects, TransactionKind.input_objects, hrec,
            hsys] at h
      · rintro ⟨u, hu, hcu⟩
        rw [hall u hu] at hcu
        cases hcu
    · intro l h
      by_cases hsys : td.kind.is_system_tx <;>
        simp only [TransactionData.input_objects, TransactionKind.input_objects, hrec,
          hsys, if_pos, if_neg, Bool.false_eq_true, if_true, if_false,
          Except.ok.injEq] at h <;>
        refine ⟨?_, hall⟩
      · rw [← h, hmap, hsys]
        simp
      · rw [← h, hmap]
        simp [hsys, TransactionData.gas_payment_object_ref]

/-- C2 (amended) witness: a `Pay` listing the same coin twice is the spec's
duplicate-input scenario and fails with `DuplicateObjectRefInput`. -/
theorem input_objects_duplicates_witness :
    TransactionData.input_objects deserNone tdPayDup =
      .error .DuplicateObjectRefInput :=
  (input_objects_duplicates deserNone tdPayDup).2.1.mpr
    ⟨.Pay { coins := [refA, refA], recipients := [1], amounts := [1] },
      by decide, by decide⟩

/-- `sharedIds` distributes over list concatenation. -/
theorem sharedIds_append (l1 l2 : List InputObjectKind) :
    sharedIds (l1 ++ l2) = sharedIds l1 ++ sharedIds l2 :=
  List.filterMap_append l1 l2 _

/-- Per call argument, the shared ids among its input entries are exactly its
shared entries. -/
theorem sharedIds_inputEntries (a : CallArg) :
    sharedIds a.inputEntries = a.sharedEntries := by
  cases a with
  | Pure bytes => rfl
  | Object o => cases o <;> rfl
  | ObjVec v =>
    induction v with
    | nil => rfl
    | cons o rest ih =>
      cases o with
      | ImmOrOwnedObject r =>
        simp only [CallArg.inputEntries, CallArg.sharedEntries, sharedIds,
          List.map_cons, List.filterMap_cons] at ih ⊢
        exact ih
      | SharedObject id =>
        simp only [CallArg.inputEntries, CallArg.sharedEntries, sharedIds,
          List.map_cons, List.filterMap_cons] at ih ⊢
        exact congrArg _ ih

/-- The shared ids of the flattened per-argument input entries are the
flattened per-argument shared entries. -/
theorem sharedIds_flatMap (args : List CallArg) :
    sharedIds (args.flatMap CallArg.inputEntries) =
      args.flatMap CallArg.sharedEntries := by
  induction args with
  | nil => rfl
  | cons a args ih =>
    rw [List.flatMap_cons, List.flatMap_cons, sharedIds_append,
      sharedIds_inputEntries, ih]

/-- A list of `MovePackage` entries contains no shared ids. -/
theorem sharedIds_map_movePackage (l : List ObjectID) :
    sharedIds (l.map InputObjectKind.MovePackage) = [] := by
  induction l with
  | nil => rfl
  | cons x l ih =>
    simp only [sharedIds, List.map_cons, List.filterMap_cons] at ih ⊢
    exact ih

/-- A list of `ImmOrOwnedMoveObject` entries contains no shared ids. -/
theorem sharedIds_map_immOrOwned (l : List ObjectRef) :
    sharedIds (l.map (fun o => InputObjectKind.ImmOrOwnedMoveObject o)) = [] := by
  induction l with
  | nil => rfl
  | cons x l ih =>
    simp only [sharedIds, List.map_cons, List.filterMap_cons] at ih ⊢
    exact ih

/-- C6 counterexample: for `ChangeEpoch`, `shared_input_objects()` is empty
even though the collected inputs are the single
`SharedMoveObject(SUI_SYSTEM_STATE_OBJECT_ID)` entry — the `ChangeEpoch` arm
falls into the catch-all of `shared_input_objects`. -/
theorem shared_input_objects_counterexample :
    SingleTransactionKind.shared_input_objects
        (.ChangeEpoch { epoch := 1, storage_charge := 0, computation_charge := 0 }) = []
    ∧ SingleTransactionKind.input_objects deserNone
        (.ChangeEpoch { epoch := 1, storage_charge := 0, computation_charge := 0 }) =
        .ok [.SharedMoveObject SUI_SYSTEM_STATE_OBJECT_ID]
    ∧ SingleTransactionKind.shared_input_objects
        (.ChangeEpoch { epoch := 1, storage_charge := 0, computation_charge := 0 }) ≠
        sharedIds [.SharedMoveObject SUI_SYSTEM_STATE_OBJECT_ID] :=
  ⟨rfl, rfl, by decide⟩

/-- C6 (amended): for every kind other than `ChangeEpoch`,
`shared_input_objects()` is exactly the sequence of object ids of the
`SharedMoveObject` entries of the collected inputs; for `ChangeEpoch` it is
empty although the collected inputs are the single shared system-state
object. -/
theorem shared_input_objects_spec (deser : List Nat → Option CompiledModule)
    (k : SingleTransactionKind) :
    ((∀ ce, k ≠ .ChangeEpoch ce) →
      k.shared_input_objects = sharedIds (k.collectInputs deser))
    ∧ (∀ ce, k = .ChangeEpoch ce →
      k.shared_input_objects = []
      ∧ k.collectInputs deser = [.SharedMoveObject SUI_SYSTEM_STATE_OBJECT_ID]) := by
  constructor
  · intro hne
    cases k with
    | TransferObject t => rfl
    | Publish p =>
      simp only [SingleTransactionKind.shared_input_objects,
        SingleTransactionKind.collectInputs, input_objects_in_compiled_modules,
        sharedIds_map_movePackage]
    | Call c =>
      simp only [SingleTransactionKind.shared_input_objects,
        SingleTransactionKind.collectInputs, sharedIds_append, sharedIds_flatMap]
      rw [show sharedIds [InputObjectKind.MovePackage c.package.1] = [] from rfl,
        List.append_nil]
    | TransferSui t => rfl
    | Pay p =>
      simp only [SingleTransactionKind.shared_input_objects,
        SingleTransactionKind.collectInputs, sharedIds_map_immOrOwned]
    | ChangeEpoch ce => exact absurd rfl (hne ce)
  · rintro ce rfl
    exact ⟨rfl, rfl⟩

/-- C6 (amended) witness: a concrete `Call` with one shared argument. -/
theorem shared_input_objects_spec_witness :
    SingleTransactionKind.shared_input_objects
        (.Call { package := (9, 0, 0), module := "m", function := "f",
                 type_arguments := [], arguments := [.Object (.SharedObject 2)] }) =
      sharedIds (SingleTransactionKind.collectInputs deserNone
        (.Call { package := (9, 0, 0), module := "m", function := "f",
                 type_arguments := [], arguments := [.Object (.SharedObject 2)] })) :=
  (shared_input_objects_spec deserNone
    (.Call { package := (9, 0, 0), module := "m", function := "f",
             type_arguments := [], arguments := [.Object (.SharedObject 2)] })).1
    (fun _ h => SingleTransactionKind.noConfusion h)

end Sui
